import Mathlib

/-!
# camera-edge-publisher: the session driver of `main.cpp`

A shallow embedding of `src/camera-edge-publisher/main.cpp`:

* `parseArgs` (lines 129-166), together with the C/C++ library functions it
  calls (`std::string::find`, `sscanf` for the two formats it uses,
  `std::to_string`);
* `main` (lines 37-127) as a function of the statuses a scripted SDK returns,
  producing the sequence of SDK calls the driver makes and its exit status.

C strings are lists of characters (`List Char`), `unsigned int` objects are
natural numbers below `2 ^ 32`.
-/

namespace ZedLivelink

/-! ## SDK value types named by the driver -/

/-- Modelled from the spec: the SDK header `sl/Camera.hpp` is not part of the
repository. `RESOLUTION` is the "resolution enum" of the session configuration;
the constructors are the values `main.cpp` names (`AUTO` on line 48 and the six
names of `parseArgs`), `other` stands for every further value of the SDK. -/
inductive RESOLUTION where
  | HD2K | HD1200 | HD1080 | HD720 | SVGA | VGA | AUTO
  | other (code : Nat)
  deriving DecidableEq, Repr

/-- Modelled from the spec: the "depth-mode enum" of the session configuration
(`sl/Camera.hpp` is not part of the repository). `PERFORMANCE`, `ULTRA` and
`NEURAL` are the values named on lines 49-50. -/
inductive DEPTH_MODE where
  | PERFORMANCE | ULTRA | NEURAL
  | other (code : Nat)
  deriving DecidableEq, Repr

/-- Modelled from the spec: the "coordinate-system enum" of the session
configuration (`sl/Camera.hpp` is not part of the repository).
`RIGHT_HANDED_Y_UP` is the value named on line 51. -/
inductive COORDINATE_SYSTEM where
  | RIGHT_HANDED_Y_UP
  | other (code : Nat)
  deriving DecidableEq, Repr

/-- Modelled from the spec: the input source of the session configuration,
"live device / file path / network stream address+port" (`sl::InputType` is
declared in the absent SDK header). `svoFile path` is the state after
`setFromSVOFile(path)`; `stream ip (some port)` the state after
`setFromStream(ip, port)` and `stream ip none` the state after
`setFromStream(ip)`, where the SDK supplies its default port. The port is the
value of the argument at the call site. -/
inductive InputType where
  | liveDevice
  | svoFile (path : List Char)
  | stream (ip : List Char) (port : Option Nat)
  deriving DecidableEq, Repr

/-- The call `InputType::setFromSVOFile` of line 132. -/
def InputType.setFromSVOFile (_self : InputType) (path : List Char) : InputType :=
  InputType.svoFile path

/-- The call `InputType::setFromStream`, made on line 140 with a port and on
line 144 without. -/
def InputType.setFromStream (_self : InputType) (ip : List Char)
    (port : Option Nat) : InputType :=
  InputType.stream ip port

/-- The fields of `sl::InitParameters` the driver touches (lines 47-53). -/
structure InitParameters where
  camera_resolution : RESOLUTION
  depth_mode : DEPTH_MODE
  coordinate_system : COORDINATE_SYSTEM
  input : InputType
  deriving DecidableEq, Repr

/-! ## C and C++ library functions used by `parseArgs` -/

/-- The function `isspace` in the "C" locale: space, `\t`, `\n`, `\v`, `\f`, `\r`. -/
def isspace (c : Char) : Bool :=
  c.toNat = 32 || (9 ≤ c.toNat && c.toNat ≤ 13)

/-- The function `isdigit`: the ten decimal digits. -/
def isdigit (c : Char) : Bool :=
  48 ≤ c.toNat && c.toNat ≤ 57

/-- Whether `pat` occurs in `s` at position 0. -/
def startsWith : List Char → List Char → Bool
  | _, [] => true
  | [], _ :: _ => false
  | c :: s, p :: pat => c == p && startsWith s pat

/-- The value `std::string::npos`: no position. -/
def npos : Option Nat := none

/-- The function `std::string::find(pat)`: the position of the first occurrence of `pat`
in `s`, or `npos`. -/
def find : List Char → List Char → Option Nat
  | [], pat => if startsWith [] pat then some 0 else npos
  | c :: s, pat =>
    if startsWith (c :: s) pat then some 0
    else (find s pat).map (fun k => k + 1)

/-- The function `std::to_string(unsigned)`: the decimal rendering. -/
def to_string (n : Nat) : List Char :=
  Nat.toDigits 10 n

/-- The number a run of decimal digits denotes. -/
def decimalValue (ds : List Char) : Nat :=
  ds.foldl (fun acc c => 10 * acc + (c.toNat - 48)) 0

/-- What `%u` stores in an `unsigned int` for a sign and a digit run: the
result of `strtoul` (64-bit `unsigned long`: the value, negated modulo `2 ^ 64`
after a minus sign, or `ULONG_MAX` when the digits exceed it) converted to
`unsigned int`. For digit runs below `2 ^ 32` without sign this is the value. -/
def convUnsigned (neg : Bool) (ds : List Char) : Nat :=
  let v := decimalValue ds
  let ul := if 2 ^ 64 ≤ v then 2 ^ 64 - 1 else if neg then (2 ^ 64 - v) % 2 ^ 64 else v
  ul % 2 ^ 32

/-- What `%d` stores for a sign and a digit run, read back through the
`unsigned int` object the driver passes (`port`, line 136): the result of
`strtol` (64-bit `long`, saturating at `LONG_MIN` and `LONG_MAX`) converted to
`int`, as a bit pattern of 32 bits. -/
def convSigned (neg : Bool) (ds : List Char) : Nat :=
  let v : Int := decimalValue ds
  let l : Int :=
    if neg then (if 2 ^ 63 < v then -(2 ^ 63) else -v)
    else (if 2 ^ 63 ≤ v then 2 ^ 63 - 1 else v)
  (l % 2 ^ 32).toNat

/-- The directives of a `scanf` format, as far as the driver uses them. -/
inductive Directive where
  | conv_u
  | conv_d
  | space
  | lit (c : Char)
  deriving DecidableEq, Repr

/-- Reads a format string into its directives: `%u`, `%d`, white space, and
ordinary characters. Any other conversion ends the format. -/
def parseFormat : List Char → List Directive
  | [] => []
  | c :: fmt =>
    if c = '%' then
      match fmt with
      | [] => []
      | k :: fmt' =>
        if k = 'u' then Directive.conv_u :: parseFormat fmt'
        else if k = 'd' then Directive.conv_d :: parseFormat fmt'
        else []
    else if isspace c then Directive.space :: parseFormat fmt
    else Directive.lit c :: parseFormat fmt

/-- The outcome of scanning one number. -/
inductive NumberScan where
  | inputFailure
  | matchingFailure
  | number (neg : Bool) (digits : List Char) (rest : List Char)
  deriving DecidableEq, Repr

/-- The subject sequence of `%u` and `%d`: leading white space is skipped, an
optional sign is read, then the longest run of decimal digits. End of input
before any character is an input failure; no digit is a matching failure. -/
def scanNumber (input : List Char) : NumberScan :=
  match input.dropWhile isspace with
  | [] => NumberScan.inputFailure
  | c :: rest =>
    let neg := decide (c = '-')
    let body := if c = '-' ∨ c = '+' then rest else c :: rest
    let ds := body.takeWhile isdigit
    if ds = [] then NumberScan.matchingFailure
    else NumberScan.number neg ds (body.dropWhile isdigit)

/-- The value `EOF` that `sscanf` returns on an input failure before the first
conversion. -/
def EOF : Int := -1

/-- What `sscanf` returns when it stops on an input failure after `n`
assignments. -/
def inputFailureResult (vals : List Nat) : Int :=
  if vals = [] then EOF else vals.length

/-- Runs the directives over the input; `vals` are the values assigned so far,
in the order of the pointer arguments. Returns the return value of `sscanf` and
the assigned values. -/
def runDirectives : List Directive → List Char → List Nat → Int × List Nat
  | [], _, vals => (vals.length, vals)
  | Directive.conv_u :: ds, input, vals =>
    match scanNumber input with
    | NumberScan.inputFailure => (inputFailureResult vals, vals)
    | NumberScan.matchingFailure => (vals.length, vals)
    | NumberScan.number neg digits rest =>
      runDirectives ds rest (vals ++ [convUnsigned neg digits])
  | Directive.conv_d :: ds, input, vals =>
    match scanNumber input with
    | NumberScan.inputFailure => (inputFailureResult vals, vals)
    | NumberScan.matchingFailure => (vals.length, vals)
    | NumberScan.number neg digits rest =>
      runDirectives ds rest (vals ++ [convSigned neg digits])
  | Directive.space :: ds, input, vals =>
    runDirectives ds (input.dropWhile isspace) vals
  | Directive.lit c :: ds, input, vals =>
    match input with
    | [] => (inputFailureResult vals, vals)
    | x :: rest => if x = c then runDirectives ds rest vals else (vals.length, vals)

/-- The call `sscanf(s, fmt, ...)`: the return value and the values stored through the
pointer arguments, in order. -/
def sscanf (s fmt : List Char) : Int × List Nat :=
  runDirectives (parseFormat fmt) s []

/-! ## `parseArgs` -/

/-- The function `parseArgs` (lines 129-166). `argv` is the whole argument vector,
`argv[0]` included, and `argc` its length. The console output is left out. -/
def parseArgs (argv : List (List Char)) (param : InitParameters) : InitParameters :=
  let argc := argv.length
  let argv1 := argv.getD 1 []
  if argc > 1 ∧ find argv1 ".svo".toList ≠ npos then
    { param with input := param.input.setFromSVOFile argv1 }
  else if argc > 1 ∧ find argv1 ".svo".toList = npos then
    let arg := argv1
    let scan5 := sscanf arg "%u.%u.%u.%u:%d".toList
    if scan5.1 = 5 then
      let a := scan5.2.getD 0 0
      let b := scan5.2.getD 1 0
      let c := scan5.2.getD 2 0
      let d := scan5.2.getD 3 0
      let port := scan5.2.getD 4 0
      let ip_adress := to_string a ++ ['.'] ++ to_string b ++ ['.']
        ++ to_string c ++ ['.'] ++ to_string d
      { param with input := param.input.setFromStream ip_adress (some port) }
    else if (sscanf arg "%u.%u.%u.%u".toList).1 = 4 then
      { param with input := param.input.setFromStream argv1 none }
    else if find arg "HD2K".toList ≠ npos then
      { param with camera_resolution := RESOLUTION.HD2K }
    else if find arg "HD1200".toList ≠ npos then
      { param with camera_resolution := RESOLUTION.HD1200 }
    else if find arg "HD1080".toList ≠ npos then
      { param with camera_resolution := RESOLUTION.HD1080 }
    else if find arg "HD720".toList ≠ npos then
      { param with camera_resolution := RESOLUTION.HD720 }
    else if find arg "SVGA".toList ≠ npos then
      { param with camera_resolution := RESOLUTION.SVGA }
    else if find arg "VGA".toList ≠ npos then
      { param with camera_resolution := RESOLUTION.VGA }
    else param
  else param

/-- The configuration `main` hands to `parseArgs` (lines 47-51); the input
source of a default-constructed `InitParameters` is the live device. -/
def init_parameters : InitParameters :=
  { camera_resolution := RESOLUTION.AUTO
    depth_mode := DEPTH_MODE.NEURAL
    coordinate_system := COORDINATE_SYSTEM.RIGHT_HANDED_Y_UP
    input := InputType.liveDevice }

/-! ## `main` against a scripted SDK -/

/-- Modelled from the spec: the SDK's status-code enumeration
(`sl::ERROR_CODE`, declared in the absent SDK header). `SUCCESS` and
`END_OF_SVOFILE_REACHED` are the two values the driver compares with; `other`
stands for every further status. -/
inductive ERROR_CODE where
  | SUCCESS
  | END_OF_SVOFILE_REACHED
  | other (code : Nat)
  deriving DecidableEq, Repr

/-- Modelled from the spec: the "body-keypoint-format enum" of the tracking
configuration (absent SDK header); `BODY_38` is the value named on line 79. -/
inductive BODY_FORMAT where
  | BODY_38
  | other (code : Nat)
  deriving DecidableEq, Repr

/-- Modelled from the spec: the "detection-model enum" of the tracking
configuration (absent SDK header); the two values are those named on
line 80. -/
inductive BODY_TRACKING_MODEL where
  | HUMAN_BODY_FAST
  | HUMAN_BODY_ACCURATE
  | other (code : Nat)
  deriving DecidableEq, Repr

/-- The fields of `sl::BodyTrackingParameters` the driver sets (lines 76-80). -/
structure BodyTrackingParameters where
  enable_tracking : Bool
  enable_body_fitting : Bool
  body_format : BODY_FORMAT
  detection_model : BODY_TRACKING_MODEL
  deriving DecidableEq, Repr

/-- The calls `main` makes on the camera session and on the detection buffer,
with the arguments that are configuration values. `zed_open` is `zed.open`,
`body_list_clear` is `bodies.body_list.clear()`. The runtime parameters of
`retrieveBodies` are two constants built once (lines 91-93) and are left out. -/
inductive Call where
  | zed_open (param : InitParameters)
  | enablePositionalTracking
  | enableBodyTracking (param : BodyTrackingParameters)
  | startPublishing (port : Nat)
  | grab
  | retrieveBodies
  | setSVOPosition (frame_number : Int)
  | body_list_clear
  | disableBodyTracking
  | disablePositionalTracking
  | close
  deriving DecidableEq, Repr

/-- The statuses a scripted SDK returns: one for each setup call, and the
statuses of the successive `grab` calls, in order. -/
structure Sdk where
  zed_open : ERROR_CODE
  enablePositionalTracking : ERROR_CODE
  enableBodyTracking : ERROR_CODE
  startPublishing : ERROR_CODE
  grab : List ERROR_CODE
  deriving DecidableEq, Repr

/-- The value `EXIT_SUCCESS` of `<cstdlib>`. -/
def EXIT_SUCCESS : Nat := 0

/-- The value `EXIT_FAILURE` of `<cstdlib>`. -/
def EXIT_FAILURE : Nat := 1

/-- The `while (true)` loop of lines 103-116 over the statuses of the
successive `grab` calls: the calls made, and whether the loop was left by
`break`. When the script has no status left the loop is inside the next `grab`
call, which is the last call made. -/
def mainLoop : List ERROR_CODE → List Call × Bool
  | [] => ([Call.grab], false)
  | err :: rest =>
    if err = ERROR_CODE.SUCCESS then
      (Call.grab :: Call.retrieveBodies :: (mainLoop rest).1, (mainLoop rest).2)
    else if err = ERROR_CODE.END_OF_SVOFILE_REACHED then
      (Call.grab :: Call.setSVOPosition 0 :: (mainLoop rest).1, (mainLoop rest).2)
    else
      ([Call.grab], true)

/-- What a run of the driver does: the calls in order, and the exit status of
the process (`none` while the loop is still running). -/
structure Run where
  calls : List Call
  exit : Option Nat
  deriving DecidableEq, Repr

/-- The body-tracking configuration of lines 76-80. -/
def body_tracker_params (isJetson : Bool) : BodyTrackingParameters :=
  { enable_tracking := false
    enable_body_fitting := false
    body_format := BODY_FORMAT.BODY_38
    detection_model :=
      if isJetson then BODY_TRACKING_MODEL.HUMAN_BODY_FAST
      else BODY_TRACKING_MODEL.HUMAN_BODY_ACCURATE }

/-- The function `main` (lines 37-127) run against a scripted SDK. `isJetson` is the
compile-time constant of lines 39-43. The console output is left out. -/
def main (isJetson : Bool) (argv : List (List Char)) (zed : Sdk) : Run :=
  let init_parameters := parseArgs argv init_parameters
  let returned_state := zed.zed_open
  if returned_state ≠ ERROR_CODE.SUCCESS then
    { calls := [Call.zed_open init_parameters, Call.close], exit := some EXIT_FAILURE }
  else
    let returned_state := zed.enablePositionalTracking
    if returned_state ≠ ERROR_CODE.SUCCESS then
      { calls := [Call.zed_open init_parameters, Call.enablePositionalTracking, Call.close]
        exit := some EXIT_FAILURE }
    else
      let returned_state := zed.enableBodyTracking
      if returned_state ≠ ERROR_CODE.SUCCESS then
        { calls := [Call.zed_open init_parameters, Call.enablePositionalTracking,
            Call.enableBodyTracking (body_tracker_params isJetson), Call.close]
          exit := some EXIT_FAILURE }
      else
        let loop := mainLoop zed.grab
        let setup := [Call.zed_open init_parameters, Call.enablePositionalTracking,
          Call.enableBodyTracking (body_tracker_params isJetson), Call.startPublishing 3000]
        if loop.2 then
          { calls := setup ++ loop.1 ++ [Call.body_list_clear, Call.disableBodyTracking,
              Call.disablePositionalTracking, Call.close]
            exit := some EXIT_SUCCESS }
        else
          { calls := setup ++ loop.1, exit := none }

/-! ## Notions used to state the claims -/

/-- A nonempty run of decimal digits: an unsigned decimal numeral. -/
def UnsignedNumeral (ds : List Char) : Prop :=
  ds ≠ [] ∧ ∀ c ∈ ds, isdigit c = true

/-- The six resolution names in the order the command-line interface lists
them, each with the resolution it names. -/
def listedResolutionNames : List (List Char × RESOLUTION) :=
  [("HD2K".toList, RESOLUTION.HD2K), ("HD1200".toList, RESOLUTION.HD1200),
    ("HD1080".toList, RESOLUTION.HD1080), ("HD720".toList, RESOLUTION.HD720),
    ("SVGA".toList, RESOLUTION.SVGA), ("VGA".toList, RESOLUTION.VGA)]

/-- What one `%u` or `%d` consumes: white space, an optional sign, and a
nonempty run of digits. -/
def NumberField (f : List Char) : Prop :=
  ∃ ws sign ds, f = ws ++ sign ++ ds ∧ (∀ c ∈ ws, isspace c = true)
    ∧ (sign = [] ∨ sign = ['-'] ∨ sign = ['+']) ∧ UnsignedNumeral ds

/-- The input begins with four number fields separated by dots. -/
def ScansAsDottedQuad (arg : List Char) : Prop :=
  ∃ f1 f2 f3 f4 rest, NumberField f1 ∧ NumberField f2 ∧ NumberField f3 ∧ NumberField f4
    ∧ arg = f1 ++ ['.'] ++ f2 ++ ['.'] ++ f3 ++ ['.'] ++ f4 ++ rest

/-- The input begins with four unsigned decimal numerals separated by dots. -/
def BeginsWithDottedQuad (arg : List Char) : Prop :=
  ∃ da db dc dd rest, UnsignedNumeral da ∧ UnsignedNumeral db ∧ UnsignedNumeral dc
    ∧ UnsignedNumeral dd ∧ arg = da ++ ['.'] ++ db ++ ['.'] ++ dc ++ ['.'] ++ dd ++ rest

/-- The input begins with four number fields separated by dots, then a colon
and a fifth number field. -/
def ScansAsDottedQuadPort (arg : List Char) : Prop :=
  ∃ f1 f2 f3 f4 f5 rest, NumberField f1 ∧ NumberField f2 ∧ NumberField f3 ∧ NumberField f4
    ∧ NumberField f5
    ∧ arg = f1 ++ ['.'] ++ f2 ++ ['.'] ++ f3 ++ ['.'] ++ f4 ++ [':'] ++ f5 ++ rest

/-- The statuses on which the loop goes round again: success and end of file. -/
def continuesLoop (e : ERROR_CODE) : Bool :=
  e = ERROR_CODE.SUCCESS ∨ e = ERROR_CODE.END_OF_SVOFILE_REACHED

/-- The calls of one round of the loop, by the status `grab` returns in it: the
`grab` itself, then the retrieval after a success, the rewind to position 0
after an end of file, and nothing after any other status. -/
def roundCalls : ERROR_CODE → List Call
  | ERROR_CODE.SUCCESS => [Call.grab, Call.retrieveBodies]
  | ERROR_CODE.END_OF_SVOFILE_REACHED => [Call.grab, Call.setSVOPosition 0]
  | ERROR_CODE.other _ => [Call.grab]

/-- The calls of the setup when it succeeds (lines 56-99). -/
def setupCalls (isJetson : Bool) (argv : List (List Char)) : List Call :=
  [Call.zed_open (parseArgs argv init_parameters), Call.enablePositionalTracking,
    Call.enableBodyTracking (body_tracker_params isJetson), Call.startPublishing 3000]

/-- The calls of the shutdown at the normal exit of the loop (lines 118-124). -/
def teardownCalls : List Call :=
  [Call.body_list_clear, Call.disableBodyTracking, Call.disablePositionalTracking, Call.close]

/-! ## Lemmas on the library functions -/

theorem startsWith_iff (s pat : List Char) : startsWith s pat = true ↔ pat <+: s := by
  induction s generalizing pat with
  | nil => cases pat <;> simp [startsWith]
  | cons c s ih =>
    cases pat with
    | nil => simp [startsWith]
    | cons p pat =>
      simp only [startsWith, Bool.and_eq_true, beq_iff_eq, ih, List.cons_prefix_cons]
      constructor
      · rintro ⟨h, h2⟩; exact ⟨h.symm, h2⟩
      · rintro ⟨h, h2⟩; exact ⟨h.symm, h2⟩

theorem find_cons (c : Char) (s pat : List Char) :
    find (c :: s) pat
      = if startsWith (c :: s) pat then some 0 else (find s pat).map (fun k => k + 1) := rfl

/-- The search `find` returns a position exactly when the pattern is a substring. -/
theorem find_ne_npos_iff (s pat : List Char) : find s pat ≠ npos ↔ pat <:+: s := by
  induction s with
  | nil =>
    cases pat <;> simp [find, startsWith, npos]
  | cons c s ih =>
    rw [find_cons, List.infix_cons_iff, ← ih, ← startsWith_iff]
    by_cases h : startsWith (c :: s) pat = true
    · simp [h, npos]
    · simp [h, npos]

theorem find_eq_npos_iff (s pat : List Char) : find s pat = npos ↔ ¬ pat <:+: s := by
  rw [← find_ne_npos_iff]; simp

theorem isspace_of_isdigit {c : Char} (h : isdigit c = true) : isspace c = false := by
  simp only [isdigit, Bool.and_eq_true, decide_eq_true_eq] at h
  simp only [isspace, Bool.or_eq_false_iff, Bool.and_eq_false_iff, decide_eq_false_iff_not]
  omega

theorem not_sign_of_isdigit {c : Char} (h : isdigit c = true) : ¬ (c = '-' ∨ c = '+') := by
  rintro (rfl | rfl) <;> revert h <;> decide

theorem ne_minus_of_isdigit {c : Char} (h : isdigit c = true) : c ≠ '-' :=
  fun hc => not_sign_of_isdigit h (Or.inl hc)

/-- Scanning a number where the input starts with a digit run. -/
theorem scanNumber_digits (ds rest : List Char) (hne : ds ≠ [])
    (hd : ∀ c ∈ ds, isdigit c = true) :
    scanNumber (ds ++ rest)
      = NumberScan.number false (ds ++ rest.takeWhile isdigit) (rest.dropWhile isdigit) := by
  cases ds with
  | nil => exact absurd rfl hne
  | cons c ds =>
    have hc : isdigit c = true := hd c (List.mem_cons_self _ _)
    have hsp : isspace c = false := isspace_of_isdigit hc
    have htw : List.takeWhile isdigit (c :: (ds ++ rest))
        = c :: ds ++ rest.takeWhile isdigit := by
      rw [← List.cons_append, List.takeWhile_append_of_pos hd]
    have hdw : List.dropWhile isdigit (c :: (ds ++ rest)) = rest.dropWhile isdigit := by
      rw [← List.cons_append, List.dropWhile_append_of_pos hd]
    unfold scanNumber
    rw [List.cons_append, List.dropWhile_cons_of_neg (by simp [hsp])]
    simp only [if_neg (not_sign_of_isdigit hc), htw, hdw]
    simp [ne_minus_of_isdigit hc]

theorem convUnsigned_of_lt (ds : List Char) (h : decimalValue ds < 2 ^ 32) :
    convUnsigned false ds = decimalValue ds := by
  unfold convUnsigned
  have h1 : ¬ 2 ^ 64 ≤ decimalValue ds := by omega
  simp only [h1, if_false, Bool.false_eq_true]
  exact Nat.mod_eq_of_lt h

theorem convSigned_of_lt (ds : List Char) (h : decimalValue ds < 2 ^ 32) :
    convSigned false ds = decimalValue ds := by
  unfold convSigned
  have h1 : ¬ (2 : Int) ^ 63 ≤ (decimalValue ds : Int) := by omega
  simp only [h1, if_false, Bool.false_eq_true]
  have h2 : ((decimalValue ds : Int)) % 2 ^ 32 = (decimalValue ds : Int) := by
    apply Int.emod_eq_of_lt <;> omega
  rw [h2]; simp

theorem runDirectives_conv_u (ds : List Directive) (digits rest : List Char) (vals : List Nat)
    (hne : digits ≠ []) (hd : ∀ c ∈ digits, isdigit c = true) :
    runDirectives (Directive.conv_u :: ds) (digits ++ rest) vals
      = runDirectives ds (rest.dropWhile isdigit)
          (vals ++ [convUnsigned false (digits ++ rest.takeWhile isdigit)]) := by
  rw [runDirectives, scanNumber_digits digits rest hne hd]

theorem runDirectives_conv_d (ds : List Directive) (digits rest : List Char) (vals : List Nat)
    (hne : digits ≠ []) (hd : ∀ c ∈ digits, isdigit c = true) :
    runDirectives (Directive.conv_d :: ds) (digits ++ rest) vals
      = runDirectives ds (rest.dropWhile isdigit)
          (vals ++ [convSigned false (digits ++ rest.takeWhile isdigit)]) := by
  rw [runDirectives, scanNumber_digits digits rest hne hd]

theorem runDirectives_lit (ds : List Directive) (c : Char) (rest : List Char) (vals : List Nat) :
    runDirectives (Directive.lit c :: ds) (c :: rest) vals = runDirectives ds rest vals := by
  rw [runDirectives]; simp

theorem takeWhile_isdigit_dot (r : List Char) : List.takeWhile isdigit ('.' :: r) = [] := by
  rw [List.takeWhile_cons]; rfl

theorem dropWhile_isdigit_dot (r : List Char) : List.dropWhile isdigit ('.' :: r) = '.' :: r := by
  rw [List.dropWhile_cons]; rfl

/-- The first seven directives of both formats on an input that begins with
four dot-separated digit runs. -/
theorem runDirectives_quad (tail : List Directive) (da db dc dd rest : List Char)
    (ha : da ≠ []) (hb : db ≠ []) (hc : dc ≠ []) (hd : dd ≠ [])
    (ha' : ∀ c ∈ da, isdigit c = true) (hb' : ∀ c ∈ db, isdigit c = true)
    (hc' : ∀ c ∈ dc, isdigit c = true) (hd' : ∀ c ∈ dd, isdigit c = true) :
    runDirectives
        (Directive.conv_u :: Directive.lit '.' :: Directive.conv_u :: Directive.lit '.'
          :: Directive.conv_u :: Directive.lit '.' :: Directive.conv_u :: tail)
        (da ++ ('.' :: (db ++ ('.' :: (dc ++ ('.' :: (dd ++ rest))))))) []
      = runDirectives tail (rest.dropWhile isdigit)
          [convUnsigned false da, convUnsigned false db, convUnsigned false dc,
            convUnsigned false (dd ++ rest.takeWhile isdigit)] := by
  rw [runDirectives_conv_u _ _ _ _ ha ha', takeWhile_isdigit_dot, dropWhile_isdigit_dot,
    runDirectives_lit,
    runDirectives_conv_u _ _ _ _ hb hb', takeWhile_isdigit_dot, dropWhile_isdigit_dot,
    runDirectives_lit,
    runDirectives_conv_u _ _ _ _ hc hc', takeWhile_isdigit_dot, dropWhile_isdigit_dot,
    runDirectives_lit,
    runDirectives_conv_u _ _ _ _ hd hd']
  simp

theorem parseFormat_quad_port : parseFormat "%u.%u.%u.%u:%d".toList
    = [Directive.conv_u, Directive.lit '.', Directive.conv_u, Directive.lit '.',
        Directive.conv_u, Directive.lit '.', Directive.conv_u, Directive.lit ':',
        Directive.conv_d] := by decide

theorem parseFormat_quad : parseFormat "%u.%u.%u.%u".toList
    = [Directive.conv_u, Directive.lit '.', Directive.conv_u, Directive.lit '.',
        Directive.conv_u, Directive.lit '.', Directive.conv_u] := by decide

/-! ## The branches of `parseArgs` -/

/-- The first branch of `parseArgs`: the argument contains ".svo". -/
theorem parseArgs_of_svo (prog arg : List Char) (more : List (List Char))
    (param : InitParameters) (h : find arg ".svo".toList ≠ npos) :
    parseArgs (prog :: arg :: more) param
      = { param with input := InputType.svoFile arg } := by
  have h1 : (prog :: arg :: more).length > 1 := by simp
  unfold parseArgs
  simp only [List.getD_cons_succ, List.getD_cons_zero]
  rw [if_pos ⟨h1, h⟩]
  rfl

/-- The second branch of `parseArgs`: the chain of tests on an argument without
".svo". -/
theorem parseArgs_of_not_svo (prog arg : List Char) (more : List (List Char))
    (param : InitParameters) (h : find arg ".svo".toList = npos) :
    parseArgs (prog :: arg :: more) param
      = if (sscanf arg "%u.%u.%u.%u:%d".toList).1 = 5 then
          { param with
            input := InputType.stream
              (to_string ((sscanf arg "%u.%u.%u.%u:%d".toList).2.getD 0 0) ++ ['.']
                ++ to_string ((sscanf arg "%u.%u.%u.%u:%d".toList).2.getD 1 0) ++ ['.']
                ++ to_string ((sscanf arg "%u.%u.%u.%u:%d".toList).2.getD 2 0) ++ ['.']
                ++ to_string ((sscanf arg "%u.%u.%u.%u:%d".toList).2.getD 3 0))
              (some ((sscanf arg "%u.%u.%u.%u:%d".toList).2.getD 4 0)) }
        else if (sscanf arg "%u.%u.%u.%u".toList).1 = 4 then
          { param with input := InputType.stream arg none }
        else if find arg "HD2K".toList ≠ npos then
          { param with camera_resolution := RESOLUTION.HD2K }
        else if find arg "HD1200".toList ≠ npos then
          { param with camera_resolution := RESOLUTION.HD1200 }
        else if find arg "HD1080".toList ≠ npos then
          { param with camera_resolution := RESOLUTION.HD1080 }
        else if find arg "HD720".toList ≠ npos then
          { param with camera_resolution := RESOLUTION.HD720 }
        else if find arg "SVGA".toList ≠ npos then
          { param with camera_resolution := RESOLUTION.SVGA }
        else if find arg "VGA".toList ≠ npos then
          { param with camera_resolution := RESOLUTION.VGA }
        else param := by
  have h1 : (prog :: arg :: more).length > 1 := by simp
  unfold parseArgs
  simp only [List.getD_cons_succ, List.getD_cons_zero]
  rw [if_neg (fun hh => hh.2 h), if_pos ⟨h1, h⟩]
  rfl

/-- Without a first argument `parseArgs` changes nothing. -/
theorem parseArgs_of_short (argv : List (List Char)) (param : InitParameters)
    (h : argv.length ≤ 1) : parseArgs argv param = param := by
  unfold parseArgs
  simp only []
  rw [if_neg (fun hh => by omega), if_neg (fun hh => by omega)]

/-! ## The two `sscanf` calls on dotted quads -/

/-- A string of digits, dots and colons has no ".svo" in it. -/
theorem find_svo_of_no_s (arg : List Char) (h : ∀ c ∈ arg, c ≠ 's') :
    find arg ".svo".toList = npos := by
  rw [find_eq_npos_iff]
  intro hin
  exact h 's' (hin.subset (by decide)) rfl

theorem ne_s_of_isdigit {c : Char} (h : isdigit c = true) : c ≠ 's' := by
  rintro rfl; revert h; decide

/-- The format with a port on `a.b.c.d:p`. -/
theorem sscanf_quad_port (da db dc dd dp : List Char)
    (ha : UnsignedNumeral da) (hb : UnsignedNumeral db) (hc : UnsignedNumeral dc)
    (hd : UnsignedNumeral dd) (hp : UnsignedNumeral dp) :
    sscanf (da ++ ['.'] ++ db ++ ['.'] ++ dc ++ ['.'] ++ dd ++ [':'] ++ dp)
        "%u.%u.%u.%u:%d".toList
      = (5, [convUnsigned false da, convUnsigned false db, convUnsigned false dc,
          convUnsigned false dd, convSigned false dp]) := by
  unfold sscanf
  rw [parseFormat_quad_port]
  simp only [List.append_assoc, List.singleton_append, List.cons_append, List.nil_append]
  rw [runDirectives_quad _ da db dc dd _ ha.1 hb.1 hc.1 hd.1 ha.2 hb.2 hc.2 hd.2]
  have h1 : List.takeWhile isdigit (':' :: dp) = [] := by rw [List.takeWhile_cons]; rfl
  have h2 : List.dropWhile isdigit (':' :: dp) = ':' :: dp := by rw [List.dropWhile_cons]; rfl
  rw [h1, h2, runDirectives_lit]
  have h3 := runDirectives_conv_d [] dp [] [convUnsigned false da, convUnsigned false db,
    convUnsigned false dc, convUnsigned false (dd ++ [])] hp.1 hp.2
  rw [List.append_nil] at h3
  rw [h3]
  simp [runDirectives]

/-- The format without a port on an input that begins with `a.b.c.d`. -/
theorem sscanf_quad (da db dc dd rest : List Char)
    (ha : UnsignedNumeral da) (hb : UnsignedNumeral db) (hc : UnsignedNumeral dc)
    (hd : UnsignedNumeral dd) :
    sscanf (da ++ ['.'] ++ db ++ ['.'] ++ dc ++ ['.'] ++ dd ++ rest) "%u.%u.%u.%u".toList
      = (4, [convUnsigned false da, convUnsigned false db, convUnsigned false dc,
          convUnsigned false (dd ++ rest.takeWhile isdigit)]) := by
  unfold sscanf
  rw [parseFormat_quad]
  simp only [List.append_assoc, List.singleton_append, List.cons_append, List.nil_append]
  rw [runDirectives_quad _ da db dc dd _ ha.1 hb.1 hc.1 hd.1 ha.2 hb.2 hc.2 hd.2]
  simp [runDirectives]

/-- The format with a port on `a.b.c.d` alone stops after four assignments. -/
theorem sscanf_quad_port_of_no_port (da db dc dd : List Char)
    (ha : UnsignedNumeral da) (hb : UnsignedNumeral db) (hc : UnsignedNumeral dc)
    (hd : UnsignedNumeral dd) :
    (sscanf (da ++ ['.'] ++ db ++ ['.'] ++ dc ++ ['.'] ++ dd) "%u.%u.%u.%u:%d".toList).1 = 4 := by
  unfold sscanf
  rw [parseFormat_quad_port]
  have h := runDirectives_quad [Directive.lit ':', Directive.conv_d] da db dc dd []
    ha.1 hb.1 hc.1 hd.1 ha.2 hb.2 hc.2 hd.2
  simp only [List.append_assoc, List.singleton_append, List.cons_append, List.nil_append]
  rw [List.append_nil] at h
  rw [h]
  simp [runDirectives, inputFailureResult]

/-! ## Claims on `parseArgs` -/

/-- C1: when the first argument contains ".svo" as a substring, `parseArgs`
selects file playback with exactly that argument as the path, whatever else the
argument contains, and changes nothing else (the camera resolution in
particular). -/
theorem parseArgs_svo (prog arg : List Char) (more : List (List Char))
    (param : InitParameters) (hsvo : ".svo".toList <:+: arg) :
    parseArgs (prog :: arg :: more) param = { param with input := InputType.svoFile arg } :=
  parseArgs_of_svo prog arg more param ((find_ne_npos_iff arg ".svo".toList).2 hsvo)

theorem parseArgs_svo_witness :
    ".svo".toList <:+: "./rec/HD720 1.2.3.4.svo2".toList ∧
    parseArgs ["prog".toList, "./rec/HD720 1.2.3.4.svo2".toList] init_parameters
      = { init_parameters with input := InputType.svoFile "./rec/HD720 1.2.3.4.svo2".toList } :=
  ⟨by decide, parseArgs_svo _ _ _ _ (by decide)⟩

/-- C2: when the first argument is `a.b.c.d:p` with five unsigned decimal
numerals whose values fit in 32 bits, `parseArgs` selects the network stream
whose address is the decimal rendering of the four values joined by dots and
whose port is the value of `p`, and changes nothing else; the argument has no
".svo" in it. -/
theorem parseArgs_ip_port (prog : List Char) (more : List (List Char)) (param : InitParameters)
    (da db dc dd dp : List Char)
    (ha : UnsignedNumeral da) (hb : UnsignedNumeral db) (hc : UnsignedNumeral dc)
    (hd : UnsignedNumeral dd) (hp : UnsignedNumeral dp)
    (va : decimalValue da < 2 ^ 32) (vb : decimalValue db < 2 ^ 32)
    (vc : decimalValue dc < 2 ^ 32) (vd : decimalValue dd < 2 ^ 32)
    (vp : decimalValue dp < 2 ^ 32) :
    find (da ++ ['.'] ++ db ++ ['.'] ++ dc ++ ['.'] ++ dd ++ [':'] ++ dp) ".svo".toList = npos ∧
    parseArgs (prog :: (da ++ ['.'] ++ db ++ ['.'] ++ dc ++ ['.'] ++ dd ++ [':'] ++ dp) :: more)
        param
      = { param with
          input := InputType.stream
            (to_string (decimalValue da) ++ ['.'] ++ to_string (decimalValue db) ++ ['.']
              ++ to_string (decimalValue dc) ++ ['.'] ++ to_string (decimalValue dd))
            (some (decimalValue dp)) } := by
  have hsvo : find (da ++ ['.'] ++ db ++ ['.'] ++ dc ++ ['.'] ++ dd ++ [':'] ++ dp)
      ".svo".toList = npos := by
    apply find_svo_of_no_s
    intro c hc'
    simp only [List.mem_append, List.mem_singleton] at hc'
    rcases hc' with ((((((((h | h) | h) | h) | h) | h) | h) | h) | h)
    · exact ne_s_of_isdigit (ha.2 c h)
    · rw [h]; decide
    · exact ne_s_of_isdigit (hb.2 c h)
    · rw [h]; decide
    · exact ne_s_of_isdigit (hc.2 c h)
    · rw [h]; decide
    · exact ne_s_of_isdigit (hd.2 c h)
    · rw [h]; decide
    · exact ne_s_of_isdigit (hp.2 c h)
  refine ⟨hsvo, ?_⟩
  rw [parseArgs_of_not_svo _ _ _ _ hsvo, sscanf_quad_port da db dc dd dp ha hb hc hd hp]
  rw [if_pos rfl]
  simp only [List.getD_cons_zero, List.getD_cons_succ]
  rw [convUnsigned_of_lt da va, convUnsigned_of_lt db vb, convUnsigned_of_lt dc vc,
    convUnsigned_of_lt dd vd, convSigned_of_lt dp vp]

theorem parseArgs_ip_port_witness :
    find "192.168.1.10:3000".toList ".svo".toList = npos ∧
    parseArgs ["prog".toList, "192.168.1.10:3000".toList] init_parameters
      = { init_parameters with
          input := InputType.stream "192.168.1.10".toList (some 3000) } :=
  parseArgs_ip_port "prog".toList [] init_parameters
    "192".toList "168".toList "1".toList "10".toList "3000".toList
    ⟨by decide, by decide⟩ ⟨by decide, by decide⟩ ⟨by decide, by decide⟩
    ⟨by decide, by decide⟩ ⟨by decide, by decide⟩
    (by decide) (by decide) (by decide) (by decide) (by decide)

/-- C3: when the first argument is `a.b.c.d`, four unsigned decimal numerals
joined by dots and nothing more, `parseArgs` selects the network stream whose
address is the argument itself, passes no port, and changes nothing else; the
argument has no ".svo" in it. -/
theorem parseArgs_ip_only (prog : List Char) (more : List (List Char)) (param : InitParameters)
    (da db dc dd : List Char)
    (ha : UnsignedNumeral da) (hb : UnsignedNumeral db) (hc : UnsignedNumeral dc)
    (hd : UnsignedNumeral dd) :
    find (da ++ ['.'] ++ db ++ ['.'] ++ dc ++ ['.'] ++ dd) ".svo".toList = npos ∧
    parseArgs (prog :: (da ++ ['.'] ++ db ++ ['.'] ++ dc ++ ['.'] ++ dd) :: more) param
      = { param with
          input := InputType.stream (da ++ ['.'] ++ db ++ ['.'] ++ dc ++ ['.'] ++ dd) none } := by
  have hsvo : find (da ++ ['.'] ++ db ++ ['.'] ++ dc ++ ['.'] ++ dd) ".svo".toList = npos := by
    apply find_svo_of_no_s
    intro c hc'
    simp only [List.mem_append, List.mem_singleton] at hc'
    rcases hc' with ((((((h | h) | h) | h) | h) | h) | h)
    · exact ne_s_of_isdigit (ha.2 c h)
    · rw [h]; decide
    · exact ne_s_of_isdigit (hb.2 c h)
    · rw [h]; decide
    · exact ne_s_of_isdigit (hc.2 c h)
    · rw [h]; decide
    · exact ne_s_of_isdigit (hd.2 c h)
  refine ⟨hsvo, ?_⟩
  have h5 := sscanf_quad_port_of_no_port da db dc dd ha hb hc hd
  have h4 := sscanf_quad da db dc dd [] ha hb hc hd
  rw [List.append_nil] at h4
  rw [parseArgs_of_not_svo _ _ _ _ hsvo, if_neg (by rw [h5]; decide), if_pos (by rw [h4])]

theorem parseArgs_ip_only_witness :
    find "192.168.1.10".toList ".svo".toList = npos ∧
    parseArgs ["prog".toList, "192.168.1.10".toList] init_parameters
      = { init_parameters with input := InputType.stream "192.168.1.10".toList none } :=
  parseArgs_ip_only "prog".toList [] init_parameters
    "192".toList "168".toList "1".toList "10".toList
    ⟨by decide, by decide⟩ ⟨by decide, by decide⟩ ⟨by decide, by decide⟩
    ⟨by decide, by decide⟩

/-- C4: when the first argument has no ".svo" in it, is scanned by neither
`sscanf` call as four dot-separated numbers, and contains one of the six
resolution names, `parseArgs` sets the camera resolution to the first name of
the list HD2K, HD1200, HD1080, HD720, SVGA, VGA that occurs in the argument and
changes nothing else (the input source stays as it was). -/
theorem parseArgs_resolution (prog arg : List Char) (more : List (List Char))
    (param : InitParameters) (name : List Char) (res : RESOLUTION)
    (hsvo : ¬ ".svo".toList <:+: arg)
    (h5 : (sscanf arg "%u.%u.%u.%u:%d".toList).1 ≠ 5)
    (h4 : (sscanf arg "%u.%u.%u.%u".toList).1 ≠ 4)
    (hfirst : listedResolutionNames.find? (fun p => decide (p.1 <:+: arg)) = some (name, res)) :
    parseArgs (prog :: arg :: more) param = { param with camera_resolution := res } := by
  rw [parseArgs_of_not_svo _ _ _ _ ((find_eq_npos_iff _ _).2 hsvo), if_neg h5, if_neg h4]
  simp only [find_ne_npos_iff]
  unfold listedResolutionNames at hfirst
  simp only [List.find?_cons, List.find?_nil] at hfirst
  by_cases h1 : "HD2K".toList <:+: arg
  · rw [if_pos h1]; simp only [h1, decide_True] at hfirst; cases hfirst; rfl
  rw [if_neg h1]; simp only [h1, decide_False] at hfirst
  by_cases h2 : "HD1200".toList <:+: arg
  · rw [if_pos h2]; simp only [h2, decide_True] at hfirst; cases hfirst; rfl
  rw [if_neg h2]; simp only [h2, decide_False] at hfirst
  by_cases h3 : "HD1080".toList <:+: arg
  · rw [if_pos h3]; simp only [h3, decide_True] at hfirst; cases hfirst; rfl
  rw [if_neg h3]; simp only [h3, decide_False] at hfirst
  by_cases h6 : "HD720".toList <:+: arg
  · rw [if_pos h6]; simp only [h6, decide_True] at hfirst; cases hfirst; rfl
  rw [if_neg h6]; simp only [h6, decide_False] at hfirst
  by_cases h7 : "SVGA".toList <:+: arg
  · rw [if_pos h7]; simp only [h7, decide_True] at hfirst; cases hfirst; rfl
  rw [if_neg h7]; simp only [h7, decide_False] at hfirst
  by_cases h8 : "VGA".toList <:+: arg
  · rw [if_pos h8]; simp only [h8, decide_True] at hfirst; cases hfirst; rfl
  simp only [h8, decide_False] at hfirst
  cases hfirst

theorem parseArgs_resolution_witness :
    parseArgs ["prog".toList, "SVGA".toList] init_parameters
        = { init_parameters with camera_resolution := RESOLUTION.SVGA } ∧
    parseArgs ["prog".toList, "HD1080".toList] init_parameters
        = { init_parameters with camera_resolution := RESOLUTION.HD1080 } ∧
    (parseArgs ["prog".toList, "HD1080".toList] init_parameters).input = InputType.liveDevice :=
  ⟨parseArgs_resolution "prog".toList "SVGA".toList [] init_parameters "SVGA".toList
      RESOLUTION.SVGA (by decide) (by decide) (by decide) (by decide),
    parseArgs_resolution "prog".toList "HD1080".toList [] init_parameters "HD1080".toList
      RESOLUTION.HD1080 (by decide) (by decide) (by decide) (by decide),
    by decide⟩

/-! ## What the two `sscanf` calls accept -/

theorem inputFailureResult_le (vals : List Nat) : inputFailureResult vals ≤ vals.length := by
  unfold inputFailureResult EOF
  split <;> omega

theorem takeWhile_all (p : Char → Bool) (l : List Char) : ∀ c ∈ l.takeWhile p, p c = true := by
  intro c hc
  exact List.mem_takeWhile_imp hc

/-- A successful number scan splits the input into a number field and the rest. -/
theorem scanNumber_sound (input : List Char) (neg : Bool) (ds rest : List Char)
    (h : scanNumber input = NumberScan.number neg ds rest) :
    ∃ f, NumberField f ∧ input = f ++ rest := by
  unfold scanNumber at h
  have hsplit : input = input.takeWhile isspace ++ input.dropWhile isspace :=
    (List.takeWhile_append_dropWhile isspace input).symm
  cases hdw : input.dropWhile isspace with
  | nil => rw [hdw] at h; simp at h
  | cons c r =>
    rw [hdw] at h hsplit
    simp only at h
    by_cases hsign : c = '-' ∨ c = '+'
    · rw [if_pos hsign] at h
      by_cases hnil : List.takeWhile isdigit r = []
      · rw [if_pos hnil] at h; cases h
      · rw [if_neg hnil] at h
        injection h with _ hds hrest
        refine ⟨input.takeWhile isspace ++ [c] ++ ds, ⟨_, [c], ds, rfl, takeWhile_all _ _, ?_, ?_⟩, ?_⟩
        · rcases hsign with rfl | rfl <;> simp
        · rw [← hds]; exact ⟨hnil, takeWhile_all _ _⟩
        · rw [← hds, ← hrest]
          have := List.takeWhile_append_dropWhile isdigit r
          simp only [List.append_assoc, List.singleton_append, List.cons_append, List.nil_append]
          rw [this]
          exact hsplit
    · rw [if_neg hsign] at h
      by_cases hnil : List.takeWhile isdigit (c :: r) = []
      · rw [if_pos hnil] at h; cases h
      · rw [if_neg hnil] at h
        injection h with _ hds hrest
        refine ⟨input.takeWhile isspace ++ [] ++ ds, ⟨_, [], ds, rfl, takeWhile_all _ _, Or.inl rfl, ?_⟩, ?_⟩
        · rw [← hds]; exact ⟨hnil, takeWhile_all _ _⟩
        · rw [← hds, ← hrest]
          have := List.takeWhile_append_dropWhile isdigit (c :: r)
          simp only [List.append_assoc, List.nil_append]
          rw [this]
          exact hsplit

/-- A number field at the head of the input is scanned, together with any
digits that follow it. -/
theorem scanNumber_field (f rest : List Char) (hf : NumberField f) :
    ∃ neg ds, scanNumber (f ++ rest)
      = NumberScan.number neg (ds ++ rest.takeWhile isdigit) (rest.dropWhile isdigit) := by
  obtain ⟨ws, sign, ds, rfl, hws, hsign, hne, hds⟩ := hf
  cases ds with
  | nil => exact absurd rfl hne
  | cons d ds =>
    have hd : isdigit d = true := hds d (List.mem_cons_self _ _)
    have htw : List.takeWhile isdigit (d :: ds ++ rest)
        = d :: ds ++ rest.takeWhile isdigit := List.takeWhile_append_of_pos hds
    have hdw : List.dropWhile isdigit (d :: ds ++ rest) = rest.dropWhile isdigit :=
      List.dropWhile_append_of_pos hds
    rcases hsign with rfl | rfl | rfl
    · refine ⟨false, d :: ds, ?_⟩
      unfold scanNumber
      rw [List.append_assoc, List.append_assoc, List.dropWhile_append_of_pos hws, List.nil_append,
        List.cons_append, List.dropWhile_cons_of_neg (by simp [isspace_of_isdigit hd])]
      simp only [if_neg (not_sign_of_isdigit hd)]
      rw [← List.cons_append, htw, hdw]
      simp [ne_minus_of_isdigit hd]
    · refine ⟨true, d :: ds, ?_⟩
      unfold scanNumber
      rw [List.append_assoc, List.append_assoc, List.dropWhile_append_of_pos hws,
        List.singleton_append, List.dropWhile_cons_of_neg (by decide)]
      simp only [true_or, if_true]
      rw [htw, hdw]
      simp
    · refine ⟨false, d :: ds, ?_⟩
      unfold scanNumber
      rw [List.append_assoc, List.append_assoc, List.dropWhile_append_of_pos hws,
        List.singleton_append, List.dropWhile_cons_of_neg (by decide)]
      simp only [or_true, if_true]
      rw [htw, hdw]
      simp

theorem runDirectives_conv_u_of_scan (ds : List Directive) (input : List Char)
    (vals : List Nat) (neg : Bool) (digits rest : List Char)
    (hs : scanNumber input = NumberScan.number neg digits rest) :
    runDirectives (Directive.conv_u :: ds) input vals
      = runDirectives ds rest (vals ++ [convUnsigned neg digits]) := by
  rw [runDirectives, hs]

theorem runDirectives_conv_u_inv (ds : List Directive) (input : List Char) (vals : List Nat)
    (n : Int) (h : (runDirectives (Directive.conv_u :: ds) input vals).1 = n)
    (hn : (vals.length : Int) < n) :
    ∃ neg digits rest, scanNumber input = NumberScan.number neg digits rest := by
  rw [runDirectives] at h
  cases hs : scanNumber input with
  | inputFailure =>
    rw [hs] at h
    have := inputFailureResult_le vals
    simp only at h
    omega
  | matchingFailure =>
    rw [hs] at h
    simp only at h
    omega
  | number neg digits rest => exact ⟨neg, digits, rest, rfl⟩

theorem runDirectives_conv_d_inv (ds : List Directive) (input : List Char) (vals : List Nat)
    (n : Int) (h : (runDirectives (Directive.conv_d :: ds) input vals).1 = n)
    (hn : (vals.length : Int) < n) :
    ∃ neg digits rest, scanNumber input = NumberScan.number neg digits rest := by
  rw [runDirectives] at h
  cases hs : scanNumber input with
  | inputFailure =>
    rw [hs] at h
    have := inputFailureResult_le vals
    simp only at h
    omega
  | matchingFailure =>
    rw [hs] at h
    simp only at h
    omega
  | number neg digits rest => exact ⟨neg, digits, rest, rfl⟩

theorem runDirectives_lit_inv (ds : List Directive) (c : Char) (input : List Char)
    (vals : List Nat) (n : Int) (h : (runDirectives (Directive.lit c :: ds) input vals).1 = n)
    (hn : (vals.length : Int) < n) :
    ∃ rest, input = c :: rest := by
  cases input with
  | nil =>
    rw [runDirectives] at h
    have := inputFailureResult_le vals
    simp only at h
    omega
  | cons x rest =>
    rw [runDirectives] at h
    by_cases hx : x = c
    · exact ⟨rest, by rw [hx]⟩
    · rw [if_neg hx] at h
      simp only at h
      omega

/-- When a format that starts with `%u.%u.%u.%u` assigns at least four values,
the input begins with four number fields separated by dots, and the rest of the
format runs on what follows them. -/
theorem runDirectives_quad_inv (tail : List Directive) (arg : List Char) (n : Int)
    (hn : 4 ≤ n)
    (h : (runDirectives
        (Directive.conv_u :: Directive.lit '.' :: Directive.conv_u :: Directive.lit '.'
          :: Directive.conv_u :: Directive.lit '.' :: Directive.conv_u :: tail) arg []).1 = n) :
    ∃ f1 f2 f3 f4 rest vals, NumberField f1 ∧ NumberField f2 ∧ NumberField f3 ∧ NumberField f4
      ∧ arg = f1 ++ ['.'] ++ f2 ++ ['.'] ++ f3 ++ ['.'] ++ f4 ++ rest
      ∧ vals.length = 4
      ∧ ∀ tail', runDirectives
        (Directive.conv_u :: Directive.lit '.' :: Directive.conv_u :: Directive.lit '.'
          :: Directive.conv_u :: Directive.lit '.' :: Directive.conv_u :: tail') arg []
          = runDirectives tail' rest vals := by
  obtain ⟨n1, d1, r1, hs1⟩ := runDirectives_conv_u_inv _ _ _ n h (by simp; omega)
  rw [runDirectives_conv_u_of_scan _ _ _ _ _ _ hs1] at h
  obtain ⟨r1', rfl⟩ := runDirectives_lit_inv _ _ _ _ n h (by simp; omega)
  rw [runDirectives_lit] at h
  obtain ⟨n2, d2, r2, hs2⟩ := runDirectives_conv_u_inv _ _ _ n h (by simp; omega)
  rw [runDirectives_conv_u_of_scan _ _ _ _ _ _ hs2] at h
  obtain ⟨r2', rfl⟩ := runDirectives_lit_inv _ _ _ _ n h (by simp; omega)
  rw [runDirectives_lit] at h
  obtain ⟨n3, d3, r3, hs3⟩ := runDirectives_conv_u_inv _ _ _ n h (by simp; omega)
  rw [runDirectives_conv_u_of_scan _ _ _ _ _ _ hs3] at h
  obtain ⟨r3', rfl⟩ := runDirectives_lit_inv _ _ _ _ n h (by simp; omega)
  rw [runDirectives_lit] at h
  obtain ⟨n4, d4, r4, hs4⟩ := runDirectives_conv_u_inv _ _ _ n h (by simp; omega)
  obtain ⟨f1, hf1, e1⟩ := scanNumber_sound _ _ _ _ hs1
  obtain ⟨f2, hf2, e2⟩ := scanNumber_sound _ _ _ _ hs2
  obtain ⟨f3, hf3, e3⟩ := scanNumber_sound _ _ _ _ hs3
  obtain ⟨f4, hf4, e4⟩ := scanNumber_sound _ _ _ _ hs4
  refine ⟨f1, f2, f3, f4, r4, [convUnsigned n1 d1, convUnsigned n2 d2, convUnsigned n3 d3,
    convUnsigned n4 d4], hf1, hf2, hf3, hf4, ?_, rfl, ?_⟩
  · rw [e1, e2, e3, e4]
    simp only [List.append_assoc, List.singleton_append, List.cons_append, List.nil_append]
  · intro tail'
    rw [runDirectives_conv_u_of_scan _ _ _ _ _ _ hs1, runDirectives_lit,
      runDirectives_conv_u_of_scan _ _ _ _ _ _ hs2, runDirectives_lit,
      runDirectives_conv_u_of_scan _ _ _ _ _ _ hs3, runDirectives_lit,
      runDirectives_conv_u_of_scan _ _ _ _ _ _ hs4]
    rfl

/-- The second `sscanf` call returns 4 exactly on the inputs that begin with
four number fields separated by dots. -/
theorem sscanf_quad_iff (arg : List Char) :
    (sscanf arg "%u.%u.%u.%u".toList).1 = 4 ↔ ScansAsDottedQuad arg := by
  unfold sscanf
  rw [parseFormat_quad]
  constructor
  · intro h
    obtain ⟨f1, f2, f3, f4, rest, _, h1, h2, h3, h4, e, _, _⟩ :=
      runDirectives_quad_inv [] arg 4 (le_refl _) h
    exact ⟨f1, f2, f3, f4, rest, h1, h2, h3, h4, e⟩
  · rintro ⟨f1, f2, f3, f4, rest, h1, h2, h3, h4, rfl⟩
    simp only [List.append_assoc, List.singleton_append, List.cons_append, List.nil_append]
    obtain ⟨n1, d1, e1⟩ := scanNumber_field f1 ('.' :: (f2 ++ '.' :: (f3 ++ '.' :: (f4 ++ rest)))) h1
    obtain ⟨n2, d2, e2⟩ := scanNumber_field f2 ('.' :: (f3 ++ '.' :: (f4 ++ rest))) h2
    obtain ⟨n3, d3, e3⟩ := scanNumber_field f3 ('.' :: (f4 ++ rest)) h3
    obtain ⟨n4, d4, e4⟩ := scanNumber_field f4 rest h4
    rw [dropWhile_isdigit_dot] at e1 e2 e3
    rw [runDirectives_conv_u_of_scan _ _ _ _ _ _ e1, runDirectives_lit,
      runDirectives_conv_u_of_scan _ _ _ _ _ _ e2, runDirectives_lit,
      runDirectives_conv_u_of_scan _ _ _ _ _ _ e3, runDirectives_lit,
      runDirectives_conv_u_of_scan _ _ _ _ _ _ e4]
    simp [runDirectives]

/-- Whatever the first `sscanf` call accepts with a port, the second accepts
without. -/
theorem sscanf_quad_of_quad_port (arg : List Char)
    (h : (sscanf arg "%u.%u.%u.%u:%d".toList).1 = 5) :
    (sscanf arg "%u.%u.%u.%u".toList).1 = 4 := by
  unfold sscanf at h ⊢
  rw [parseFormat_quad_port] at h
  rw [parseFormat_quad]
  obtain ⟨f1, f2, f3, f4, rest, vals, _, _, _, _, _, hlen, hrun⟩ :=
    runDirectives_quad_inv _ arg 5 (by decide) h
  rw [hrun []]
  simp [runDirectives, hlen]

/-- The chain of tests of `parseArgs` when none of them holds. -/
theorem parseArgs_of_no_match (prog arg : List Char) (more : List (List Char))
    (param : InitParameters) (hsvo : ¬ ".svo".toList <:+: arg)
    (h4 : (sscanf arg "%u.%u.%u.%u".toList).1 ≠ 4)
    (hnames : ∀ p ∈ listedResolutionNames, ¬ p.1 <:+: arg) :
    parseArgs (prog :: arg :: more) param = param := by
  have h5 : (sscanf arg "%u.%u.%u.%u:%d".toList).1 ≠ 5 :=
    fun h => h4 (sscanf_quad_of_quad_port arg h)
  rw [parseArgs_of_not_svo _ _ _ _ ((find_eq_npos_iff _ _).2 hsvo), if_neg h5, if_neg h4]
  simp only [find_ne_npos_iff]
  rw [if_neg (hnames ("HD2K".toList, RESOLUTION.HD2K) (by simp [listedResolutionNames])),
    if_neg (hnames ("HD1200".toList, RESOLUTION.HD1200) (by simp [listedResolutionNames])),
    if_neg (hnames ("HD1080".toList, RESOLUTION.HD1080) (by simp [listedResolutionNames])),
    if_neg (hnames ("HD720".toList, RESOLUTION.HD720) (by simp [listedResolutionNames])),
    if_neg (hnames ("SVGA".toList, RESOLUTION.SVGA) (by simp [listedResolutionNames])),
    if_neg (hnames ("VGA".toList, RESOLUTION.VGA) (by simp [listedResolutionNames]))]

/-- C5 as stated fails: "-1.2.3.4" has no ".svo" in it, does not begin with
four dot-separated unsigned numbers (it begins with a sign) and contains no
resolution name, yet `%u` accepts the sign and `parseArgs` selects the network
stream with that address. -/
theorem parseArgs_ignores_counterexample :
    ¬ ".svo".toList <:+: "-1.2.3.4".toList
    ∧ ¬ BeginsWithDottedQuad "-1.2.3.4".toList
    ∧ (∀ p ∈ listedResolutionNames, ¬ p.1 <:+: "-1.2.3.4".toList)
    ∧ parseArgs ["prog".toList, "-1.2.3.4".toList] init_parameters
        = { init_parameters with input := InputType.stream "-1.2.3.4".toList none }
    ∧ parseArgs ["prog".toList, "-1.2.3.4".toList] init_parameters ≠ init_parameters := by
  refine ⟨by decide, ?_, by decide, by decide, by decide⟩
  rintro ⟨da, db, dc, dd, rest, ⟨hne, hdig⟩, -, -, -, e⟩
  cases da with
  | nil => exact hne rfl
  | cons c da =>
    have hc : isdigit c = true := hdig c (List.mem_cons_self _ _)
    simp only [List.append_assoc, List.cons_append] at e
    have hhead : '-' = c := by
      have := congrArg List.head? e
      simpa using this
    rw [← hhead] at hc
    exact absurd hc (by decide)

/-- C5, amended: `parseArgs` is a total function, and when there is no first
argument, or the first argument has no ".svo" in it, does not begin with four
dot-separated number fields (each a nonempty digit run that may be preceded by
white space and a sign, which is what `%u` accepts) and contains none of the
six resolution names, it returns the configuration exactly as it received
it. -/
theorem parseArgs_ignores (argv : List (List Char)) (param : InitParameters)
    (h : argv.length ≤ 1 ∨ ∃ arg, argv[1]? = some arg ∧ ¬ ".svo".toList <:+: arg
      ∧ ¬ ScansAsDottedQuad arg ∧ ∀ p ∈ listedResolutionNames, ¬ p.1 <:+: arg) :
    parseArgs argv param = param := by
  rcases h with h | ⟨arg, harg, hsvo, hquad, hnames⟩
  · exact parseArgs_of_short argv param h
  · match argv, harg with
    | prog :: a :: more, harg =>
      simp only [List.getElem?_cons_succ, List.getElem?_cons_zero, Option.some.injEq] at harg
      subst harg
      exact parseArgs_of_no_match prog a more param hsvo
        (fun h4 => hquad ((sscanf_quad_iff a).1 h4)) hnames

theorem parseArgs_ignores_witness :
    parseArgs ["prog".toList, "foo".toList] init_parameters = init_parameters
    ∧ parseArgs ["prog".toList] init_parameters = init_parameters :=
  ⟨parseArgs_ignores ["prog".toList, "foo".toList] init_parameters
      (Or.inr ⟨"foo".toList, rfl, by decide,
        fun h => absurd ((sscanf_quad_iff "foo".toList).2 h) (by decide), by decide⟩),
    parseArgs_ignores ["prog".toList] init_parameters (Or.inl (by decide))⟩

theorem runDirectives_conv_d_of_scan (ds : List Directive) (input : List Char)
    (vals : List Nat) (neg : Bool) (digits rest : List Char)
    (hs : scanNumber input = NumberScan.number neg digits rest) :
    runDirectives (Directive.conv_d :: ds) input vals
      = runDirectives ds rest (vals ++ [convSigned neg digits]) := by
  rw [runDirectives, hs]

/-- The first `sscanf` call returns 5 exactly on the inputs that begin with
four number fields separated by dots, a colon and a fifth number field. -/
theorem sscanf_quad_port_iff (arg : List Char) :
    (sscanf arg "%u.%u.%u.%u:%d".toList).1 = 5 ↔ ScansAsDottedQuadPort arg := by
  unfold sscanf
  rw [parseFormat_quad_port]
  constructor
  · intro h
    obtain ⟨f1, f2, f3, f4, rest, vals, h1, h2, h3, h4, e, hlen, hrun⟩ :=
      runDirectives_quad_inv _ arg 5 (by decide) h
    rw [hrun] at h
    obtain ⟨r, rfl⟩ := runDirectives_lit_inv _ _ _ _ 5 h (by rw [hlen]; decide)
    rw [runDirectives_lit] at h
    obtain ⟨n5, d5, r5, hs5⟩ := runDirectives_conv_d_inv _ _ _ 5 h (by rw [hlen]; decide)
    obtain ⟨f5, h5, e5⟩ := scanNumber_sound _ _ _ _ hs5
    refine ⟨f1, f2, f3, f4, f5, r5, h1, h2, h3, h4, h5, ?_⟩
    rw [e, e5]
    simp only [List.append_assoc, List.singleton_append, List.cons_append, List.nil_append]
  · rintro ⟨f1, f2, f3, f4, f5, rest, h1, h2, h3, h4, h5, rfl⟩
    simp only [List.append_assoc, List.singleton_append, List.cons_append, List.nil_append]
    obtain ⟨n1, d1, e1⟩ := scanNumber_field f1
      ('.' :: (f2 ++ '.' :: (f3 ++ '.' :: (f4 ++ ':' :: (f5 ++ rest))))) h1
    obtain ⟨n2, d2, e2⟩ := scanNumber_field f2 ('.' :: (f3 ++ '.' :: (f4 ++ ':' :: (f5 ++ rest)))) h2
    obtain ⟨n3, d3, e3⟩ := scanNumber_field f3 ('.' :: (f4 ++ ':' :: (f5 ++ rest))) h3
    obtain ⟨n4, d4, e4⟩ := scanNumber_field f4 (':' :: (f5 ++ rest)) h4
    obtain ⟨n5, d5, e5⟩ := scanNumber_field f5 rest h5
    have hcolon : List.dropWhile isdigit (':' :: (f5 ++ rest)) = ':' :: (f5 ++ rest) := by
      rw [List.dropWhile_cons]; rfl
    rw [dropWhile_isdigit_dot] at e1 e2 e3
    rw [hcolon] at e4
    rw [runDirectives_conv_u_of_scan _ _ _ _ _ _ e1, runDirectives_lit,
      runDirectives_conv_u_of_scan _ _ _ _ _ _ e2, runDirectives_lit,
      runDirectives_conv_u_of_scan _ _ _ _ _ _ e3, runDirectives_lit,
      runDirectives_conv_u_of_scan _ _ _ _ _ _ e4, runDirectives_lit,
      runDirectives_conv_d_of_scan _ _ _ _ _ _ e5]
    simp [runDirectives]

/-- C6: the four interpretations are tried in the order file path, ip:port,
ip, resolution name, and only the first that matches is applied. An argument
with ".svo" in it gives file playback and nothing else changes, whatever else
it contains; an argument without ".svo" that begins with four dot-separated
numbers gives a network stream and nothing else changes, whatever follows the
numbers; and when the numbers are followed by a colon and a port number the
stream has an explicit port, so it is not the ip-only form. -/
theorem parseArgs_priority (prog : List Char) (more : List (List Char))
    (param : InitParameters) :
    (∀ arg, ".svo".toList <:+: arg →
      parseArgs (prog :: arg :: more) param = { param with input := InputType.svoFile arg })
    ∧ (∀ arg, ¬ ".svo".toList <:+: arg → ScansAsDottedQuad arg →
      ∃ ip port, parseArgs (prog :: arg :: more) param
        = { param with input := InputType.stream ip port })
    ∧ (∀ arg, ¬ ".svo".toList <:+: arg → ScansAsDottedQuadPort arg →
      ∃ ip port, parseArgs (prog :: arg :: more) param
        = { param with input := InputType.stream ip (some port) }) := by
  refine ⟨fun arg h => parseArgs_of_svo prog arg more param ((find_ne_npos_iff arg _).2 h), ?_, ?_⟩
  · intro arg hsvo hquad
    rw [parseArgs_of_not_svo _ _ _ _ ((find_eq_npos_iff _ _).2 hsvo)]
    by_cases h5 : (sscanf arg "%u.%u.%u.%u:%d".toList).1 = 5
    · rw [if_pos h5]
      exact ⟨_, _, rfl⟩
    · rw [if_neg h5, if_pos ((sscanf_quad_iff arg).2 hquad)]
      exact ⟨_, _, rfl⟩
  · intro arg hsvo hport
    rw [parseArgs_of_not_svo _ _ _ _ ((find_eq_npos_iff _ _).2 hsvo),
      if_pos ((sscanf_quad_port_iff arg).2 hport)]
    exact ⟨_, _, rfl⟩

theorem parseArgs_priority_witness :
    parseArgs ["prog".toList, "HD720.svo".toList] init_parameters
        = { init_parameters with input := InputType.svoFile "HD720.svo".toList }
    ∧ parseArgs ["prog".toList, "1.2.3.4:80.svo".toList] init_parameters
        = { init_parameters with input := InputType.svoFile "1.2.3.4:80.svo".toList }
    ∧ (parseArgs ["prog".toList, "1.2.3.4 HD720".toList] init_parameters).camera_resolution
        = RESOLUTION.AUTO
    ∧ (parseArgs ["prog".toList, "1.2.3.4:80 HD720".toList] init_parameters).camera_resolution
        = RESOLUTION.AUTO := by
  refine ⟨(parseArgs_priority "prog".toList [] init_parameters).1 _ (by decide),
    (parseArgs_priority "prog".toList [] init_parameters).1 _ (by decide), ?_, ?_⟩
  · obtain ⟨ip, port, h⟩ := (parseArgs_priority "prog".toList [] init_parameters).2.1
      "1.2.3.4 HD720".toList (by decide) ((sscanf_quad_iff _).1 (by decide))
    rw [h]
    rfl
  · obtain ⟨ip, port, h⟩ := (parseArgs_priority "prog".toList [] init_parameters).2.2
      "1.2.3.4:80 HD720".toList (by decide) ((sscanf_quad_port_iff _).1 (by decide))
    rw [h]
    rfl

/-! ## The main loop -/

theorem continuesLoop_iff (e : ERROR_CODE) :
    continuesLoop e = true ↔ e = ERROR_CODE.SUCCESS ∨ e = ERROR_CODE.END_OF_SVOFILE_REACHED := by
  simp [continuesLoop]

theorem mainLoop_append (pre rest : List ERROR_CODE)
    (hpre : ∀ x ∈ pre, continuesLoop x = true) :
    mainLoop (pre ++ rest)
      = (pre.flatMap roundCalls ++ (mainLoop rest).1, (mainLoop rest).2) := by
  induction pre with
  | nil => simp
  | cons e pre ih =>
    have he : continuesLoop e = true := hpre e (List.mem_cons_self _ _)
    have ih' := ih (fun x hx => hpre x (List.mem_cons_of_mem _ hx))
    rw [List.cons_append, mainLoop, ih']
    cases e with
    | SUCCESS => simp [roundCalls]
    | END_OF_SVOFILE_REACHED => simp [roundCalls]
    | other n => exact absurd he (by simp [continuesLoop])

theorem mainLoop_stop (e : ERROR_CODE) (post : List ERROR_CODE)
    (he : continuesLoop e = false) : mainLoop (e :: post) = ([Call.grab], true) := by
  have h1 : e ≠ ERROR_CODE.SUCCESS := by
    intro h; rw [h] at he; exact absurd he (by decide)
  have h2 : e ≠ ERROR_CODE.END_OF_SVOFILE_REACHED := by
    intro h; rw [h] at he; exact absurd he (by decide)
  rw [mainLoop, if_neg h1, if_neg h2]

theorem mainLoop_dropWhile (grabs : List ERROR_CODE) :
    (mainLoop (grabs.dropWhile continuesLoop)).1 = [Call.grab] := by
  cases h : grabs.dropWhile continuesLoop with
  | nil => rfl
  | cons e post =>
    have he : continuesLoop e = false := by
      have := List.head_dropWhile_not continuesLoop grabs (by rw [h]; simp)
      simpa [h] using this
    rw [mainLoop_stop e post he]

/-- The calls of the loop, as a function of the statuses. -/
theorem mainLoop_calls (grabs : List ERROR_CODE) :
    (mainLoop grabs).1
      = (grabs.takeWhile continuesLoop).flatMap roundCalls ++ [Call.grab] := by
  have h := mainLoop_append (grabs.takeWhile continuesLoop) (grabs.dropWhile continuesLoop)
    (fun x hx => List.mem_takeWhile_imp hx)
  rw [List.takeWhile_append_dropWhile] at h
  rw [h, mainLoop_dropWhile]

theorem count_grab_rounds (pre : List ERROR_CODE) :
    (pre.flatMap roundCalls ++ [Call.grab]).count Call.grab = pre.length + 1 := by
  induction pre with
  | nil => simp
  | cons e pre ih =>
    rw [List.flatMap_cons, List.append_assoc, List.count_append, ih]
    cases e <;> simp [roundCalls] <;> omega

theorem count_rewind_rounds (pre : List ERROR_CODE) :
    (pre.flatMap roundCalls ++ [Call.grab]).count (Call.setSVOPosition 0)
      = pre.count ERROR_CODE.END_OF_SVOFILE_REACHED := by
  induction pre with
  | nil => simp
  | cons e pre ih =>
    rw [List.flatMap_cons, List.append_assoc, List.count_append, ih]
    cases e with
    | SUCCESS => simp [roundCalls]
    | END_OF_SVOFILE_REACHED => simp [roundCalls]; omega
    | other n => simp [roundCalls]

theorem count_retrieve_rounds (pre : List ERROR_CODE) :
    (pre.flatMap roundCalls ++ [Call.grab]).count Call.retrieveBodies
      = pre.count ERROR_CODE.SUCCESS := by
  induction pre with
  | nil => simp
  | cons e pre ih =>
    rw [List.flatMap_cons, List.append_assoc, List.count_append, ih]
    cases e with
    | SUCCESS => simp [roundCalls]; omega
    | END_OF_SVOFILE_REACHED => simp [roundCalls]
    | other n => simp [roundCalls]

theorem head_rounds (pre : List ERROR_CODE) :
    (pre.flatMap roundCalls ++ [Call.grab]).head? = some Call.grab := by
  cases pre with
  | nil => rfl
  | cons e pre => cases e <;> simp [roundCalls]

theorem mem_rounds (pre : List ERROR_CODE) (c : Call)
    (hc : c ∈ pre.flatMap roundCalls ++ [Call.grab]) :
    c = Call.grab ∨ c = Call.retrieveBodies ∨ c = Call.setSVOPosition 0 := by
  simp only [List.mem_append, List.mem_flatMap, List.mem_singleton] at hc
  rcases hc with ⟨e, -, he⟩ | h
  · cases e <;> simp only [roundCalls, List.mem_cons, List.mem_singleton, List.not_mem_nil,
      or_false] at he <;> tauto
  · exact Or.inl h

theorem grab_after_rewind (pre : List ERROR_CODE) (l1 l2 : List Call)
    (h : pre.flatMap roundCalls ++ [Call.grab] = l1 ++ Call.setSVOPosition 0 :: l2) :
    l2.head? = some Call.grab := by
  induction pre generalizing l1 with
  | nil =>
    rcases l1 with _ | ⟨a, _ | ⟨b, l1⟩⟩ <;> simp at h
  | cons e pre ih =>
    rw [List.flatMap_cons, List.append_assoc] at h
    cases e with
    | SUCCESS =>
      rcases l1 with _ | ⟨a, _ | ⟨b, l1⟩⟩
      · simp [roundCalls] at h
      · simp [roundCalls] at h
      · simp only [roundCalls, List.cons_append, List.nil_append, List.cons.injEq] at h
        exact ih l1 h.2.2
    | END_OF_SVOFILE_REACHED =>
      rcases l1 with _ | ⟨a, _ | ⟨b, l1⟩⟩
      · simp [roundCalls] at h
      · simp only [roundCalls, List.cons_append, List.nil_append, List.cons.injEq] at h
        rw [← h.2.2]
        exact head_rounds pre
      · simp only [roundCalls, List.cons_append, List.nil_append, List.cons.injEq] at h
        exact ih l1 h.2.2
    | other n =>
      rcases l1 with _ | ⟨a, l1⟩
      · simp [roundCalls] at h
      · simp only [roundCalls, List.cons_append, List.nil_append, List.cons.injEq] at h
        exact ih l1 h.2

/-- C7: the calls of the main loop as a function of the statuses of the
successive `grab` calls. Up to the first status that is neither success nor
end of file, each status contributes its `grab` followed by exactly one
`retrieveBodies` (success) or exactly one `setSVOPosition(0)` (end of file), in
the order of the statuses, and the loop makes one more `grab` after them; so
there are as many rewinds as end-of-file statuses and as many retrievals as
successes, every rewind is to position 0, and every rewind is followed by the
next `grab`. -/
theorem mainLoop_reacts (grabs : List ERROR_CODE) :
    (mainLoop grabs).1 = (grabs.takeWhile continuesLoop).flatMap roundCalls ++ [Call.grab]
    ∧ (mainLoop grabs).1.count (Call.setSVOPosition 0)
        = (grabs.takeWhile continuesLoop).count ERROR_CODE.END_OF_SVOFILE_REACHED
    ∧ (mainLoop grabs).1.count Call.retrieveBodies
        = (grabs.takeWhile continuesLoop).count ERROR_CODE.SUCCESS
    ∧ (∀ frame, Call.setSVOPosition frame ∈ (mainLoop grabs).1 → frame = 0)
    ∧ (∀ l1 l2, (mainLoop grabs).1 = l1 ++ Call.setSVOPosition 0 :: l2 →
        l2.head? = some Call.grab) := by
  rw [mainLoop_calls]
  refine ⟨rfl, count_rewind_rounds _, count_retrieve_rounds _, ?_, ?_⟩
  · intro frame hmem
    rcases mem_rounds _ _ hmem with h | h | h
    · cases h
    · cases h
    · injection h
  · intro l1 l2 h
    exact grab_after_rewind _ l1 l2 h

theorem mainLoop_reacts_witness :
    (mainLoop [ERROR_CODE.SUCCESS, ERROR_CODE.END_OF_SVOFILE_REACHED, ERROR_CODE.SUCCESS,
        ERROR_CODE.other 3, ERROR_CODE.END_OF_SVOFILE_REACHED]).1
      = [Call.grab, Call.retrieveBodies, Call.grab, Call.setSVOPosition 0, Call.grab,
          Call.retrieveBodies, Call.grab]
    ∧ (mainLoop [ERROR_CODE.SUCCESS, ERROR_CODE.END_OF_SVOFILE_REACHED, ERROR_CODE.SUCCESS,
        ERROR_CODE.other 3, ERROR_CODE.END_OF_SVOFILE_REACHED]).1.count (Call.setSVOPosition 0)
      = 1 :=
  ⟨(mainLoop_reacts _).1.trans (by decide), (mainLoop_reacts _).2.1.trans (by decide)⟩

/-! ## `main` -/

/-- The run of `main` once the three setup calls have succeeded. -/
theorem main_of_setup (isJetson : Bool) (argv : List (List Char)) (zed : Sdk)
    (h1 : zed.zed_open = ERROR_CODE.SUCCESS)
    (h2 : zed.enablePositionalTracking = ERROR_CODE.SUCCESS)
    (h3 : zed.enableBodyTracking = ERROR_CODE.SUCCESS) :
    main isJetson argv zed
      = if (mainLoop zed.grab).2 then
          { calls := setupCalls isJetson argv ++ (mainLoop zed.grab).1 ++ teardownCalls
            exit := some EXIT_SUCCESS }
        else
          { calls := setupCalls isJetson argv ++ (mainLoop zed.grab).1, exit := none } := by
  unfold main
  simp only [h1, h2, h3, ne_eq, not_true_eq_false, if_false]
  rfl

theorem mainLoop_going (grabs : List ERROR_CODE)
    (h : ∀ x ∈ grabs, continuesLoop x = true) :
    mainLoop grabs = (grabs.flatMap roundCalls ++ [Call.grab], false) := by
  have := mainLoop_append grabs [] h
  rw [List.append_nil] at this
  rw [this]
  rfl

theorem mainLoop_stops (pre post : List ERROR_CODE) (e : ERROR_CODE)
    (hpre : ∀ x ∈ pre, continuesLoop x = true) (he : continuesLoop e = false) :
    mainLoop (pre ++ e :: post) = (pre.flatMap roundCalls ++ [Call.grab], true) := by
  rw [mainLoop_append pre _ hpre, mainLoop_stop e post he]

theorem count_grab_setup (isJetson : Bool) (argv : List (List Char)) :
    (setupCalls isJetson argv).count Call.grab = 0 := by
  simp [setupCalls]

/-- C8: once `open`, `enablePositionalTracking` and `enableBodyTracking` have
succeeded, the loop stops exactly at the first `grab` status that is neither
success nor end of file. With such a status after `pre.length` statuses that
are success or end of file, the driver makes `pre.length + 1` calls of `grab`
and no more (the statuses after it play no part), shuts down and exits with
status 0, whatever the status was. As long as every status is success or end
of file the process does not exit, and the last call made is the next
`grab`. -/
theorem main_stops_at_first_other (isJetson : Bool) (argv : List (List Char)) (zed : Sdk)
    (h1 : zed.zed_open = ERROR_CODE.SUCCESS)
    (h2 : zed.enablePositionalTracking = ERROR_CODE.SUCCESS)
    (h3 : zed.enableBodyTracking = ERROR_CODE.SUCCESS) :
    (∀ pre e post, zed.grab = pre ++ e :: post →
      (∀ x ∈ pre, x = ERROR_CODE.SUCCESS ∨ x = ERROR_CODE.END_OF_SVOFILE_REACHED) →
      e ≠ ERROR_CODE.SUCCESS → e ≠ ERROR_CODE.END_OF_SVOFILE_REACHED →
      (main isJetson argv zed).exit = some 0
      ∧ (main isJetson argv zed).calls.count Call.grab = pre.length + 1
      ∧ (main isJetson argv zed).calls
          = setupCalls isJetson argv ++ (pre.flatMap roundCalls ++ [Call.grab]) ++ teardownCalls)
    ∧ ((∀ x ∈ zed.grab, x = ERROR_CODE.SUCCESS ∨ x = ERROR_CODE.END_OF_SVOFILE_REACHED) →
      (main isJetson argv zed).exit = none
      ∧ (main isJetson argv zed).calls.count Call.grab = zed.grab.length + 1
      ∧ (main isJetson argv zed).calls.getLast? = some Call.grab) := by
  rw [main_of_setup isJetson argv zed h1 h2 h3]
  constructor
  · intro pre e post hgrab hpre he1 he2
    have hpre' : ∀ x ∈ pre, continuesLoop x = true :=
      fun x hx => (continuesLoop_iff x).2 (hpre x hx)
    have he : continuesLoop e = false := by
      cases hc : continuesLoop e with
      | false => rfl
      | true => rcases (continuesLoop_iff e).1 hc with h | h
                · exact absurd h he1
                · exact absurd h he2
    rw [hgrab, mainLoop_stops pre post e hpre' he]
    rw [if_pos rfl]
    refine ⟨rfl, ?_, rfl⟩
    rw [List.count_append, List.count_append, count_grab_setup, count_grab_rounds]
    simp [teardownCalls]
  · intro hall
    have hall' : ∀ x ∈ zed.grab, continuesLoop x = true :=
      fun x hx => (continuesLoop_iff x).2 (hall x hx)
    rw [mainLoop_going zed.grab hall']
    rw [if_neg (by simp)]
    refine ⟨rfl, ?_, ?_⟩
    · rw [List.count_append, count_grab_setup, count_grab_rounds]
      omega
    · rw [← List.append_assoc, List.getLast?_append]
      rfl

theorem main_stops_at_first_other_witness :
    (main false ["prog".toList]
        { zed_open := ERROR_CODE.SUCCESS, enablePositionalTracking := ERROR_CODE.SUCCESS,
          enableBodyTracking := ERROR_CODE.SUCCESS, startPublishing := ERROR_CODE.SUCCESS,
          grab := [ERROR_CODE.SUCCESS, ERROR_CODE.END_OF_SVOFILE_REACHED, ERROR_CODE.other 7,
            ERROR_CODE.SUCCESS] }).exit = some 0
    ∧ (main false ["prog".toList]
        { zed_open := ERROR_CODE.SUCCESS, enablePositionalTracking := ERROR_CODE.SUCCESS,
          enableBodyTracking := ERROR_CODE.SUCCESS, startPublishing := ERROR_CODE.SUCCESS,
          grab := [ERROR_CODE.SUCCESS, ERROR_CODE.END_OF_SVOFILE_REACHED, ERROR_CODE.other 7,
            ERROR_CODE.SUCCESS] }).calls.count Call.grab = 3 :=
  have h := (main_stops_at_first_other false ["prog".toList]
    { zed_open := ERROR_CODE.SUCCESS, enablePositionalTracking := ERROR_CODE.SUCCESS,
      enableBodyTracking := ERROR_CODE.SUCCESS, startPublishing := ERROR_CODE.SUCCESS,
      grab := [ERROR_CODE.SUCCESS, ERROR_CODE.END_OF_SVOFILE_REACHED, ERROR_CODE.other 7,
        ERROR_CODE.SUCCESS] } rfl rfl rfl).1
    [ERROR_CODE.SUCCESS, ERROR_CODE.END_OF_SVOFILE_REACHED] (ERROR_CODE.other 7)
    [ERROR_CODE.SUCCESS] rfl (by decide) (by decide) (by decide)
  ⟨h.1, h.2.1⟩

/-- C9: the setup is fail-fast in the order `open`, `enablePositionalTracking`,
`enableBodyTracking`. When one of them returns a status other than success the
driver calls `close` next, makes no further call (none of the later setup
calls, no `startPublishing`, no `grab`) and exits with status 1; and the exit
status is 1 exactly when one of the three calls failed. -/
theorem main_setup_fail_fast (isJetson : Bool) (argv : List (List Char)) (zed : Sdk) :
    (zed.zed_open ≠ ERROR_CODE.SUCCESS →
      main isJetson argv zed
        = { calls := [Call.zed_open (parseArgs argv init_parameters), Call.close]
            exit := some 1 })
    ∧ (zed.zed_open = ERROR_CODE.SUCCESS →
        zed.enablePositionalTracking ≠ ERROR_CODE.SUCCESS →
      main isJetson argv zed
        = { calls := [Call.zed_open (parseArgs argv init_parameters),
              Call.enablePositionalTracking, Call.close]
            exit := some 1 })
    ∧ (zed.zed_open = ERROR_CODE.SUCCESS →
        zed.enablePositionalTracking = ERROR_CODE.SUCCESS →
        zed.enableBodyTracking ≠ ERROR_CODE.SUCCESS →
      main isJetson argv zed
        = { calls := [Call.zed_open (parseArgs argv init_parameters),
              Call.enablePositionalTracking,
              Call.enableBodyTracking (body_tracker_params isJetson), Call.close]
            exit := some 1 })
    ∧ ((main isJetson argv zed).exit = some 1 ↔
        (zed.zed_open ≠ ERROR_CODE.SUCCESS
          ∨ zed.enablePositionalTracking ≠ ERROR_CODE.SUCCESS
          ∨ zed.enableBodyTracking ≠ ERROR_CODE.SUCCESS)) := by
  have hA : zed.zed_open ≠ ERROR_CODE.SUCCESS →
      main isJetson argv zed
        = { calls := [Call.zed_open (parseArgs argv init_parameters), Call.close]
            exit := some 1 } := by
    intro h
    unfold main
    simp only []
    rw [if_pos h]
    rfl
  have hB : zed.zed_open = ERROR_CODE.SUCCESS →
      zed.enablePositionalTracking ≠ ERROR_CODE.SUCCESS →
      main isJetson argv zed
        = { calls := [Call.zed_open (parseArgs argv init_parameters),
              Call.enablePositionalTracking, Call.close]
            exit := some 1 } := by
    intro h1 h2
    unfold main
    simp only []
    rw [if_neg (fun h => h h1), if_pos h2]
    rfl
  have hC : zed.zed_open = ERROR_CODE.SUCCESS →
      zed.enablePositionalTracking = ERROR_CODE.SUCCESS →
      zed.enableBodyTracking ≠ ERROR_CODE.SUCCESS →
      main isJetson argv zed
        = { calls := [Call.zed_open (parseArgs argv init_parameters),
              Call.enablePositionalTracking,
              Call.enableBodyTracking (body_tracker_params isJetson), Call.close]
            exit := some 1 } := by
    intro h1 h2 h3
    unfold main
    simp only []
    rw [if_neg (fun h => h h1), if_neg (fun h => h h2), if_pos h3]
    rfl
  refine ⟨hA, hB, hC, ?_⟩
  by_cases h1 : zed.zed_open = ERROR_CODE.SUCCESS
  · by_cases h2 : zed.enablePositionalTracking = ERROR_CODE.SUCCESS
    · by_cases h3 : zed.enableBodyTracking = ERROR_CODE.SUCCESS
      · rw [main_of_setup isJetson argv zed h1 h2 h3]
        constructor
        · intro h
          split at h
          · exact absurd h (by decide : some EXIT_SUCCESS ≠ some 1)
          · exact absurd h (by decide : (none : Option Nat) ≠ some 1)
        · rintro (h | h | h)
          · exact absurd h1 h
          · exact absurd h2 h
          · exact absurd h3 h
      · rw [hC h1 h2 h3]
        exact ⟨fun _ => Or.inr (Or.inr h3), fun _ => rfl⟩
    · rw [hB h1 h2]
      exact ⟨fun _ => Or.inr (Or.inl h2), fun _ => rfl⟩
  · rw [hA h1]
    exact ⟨fun _ => Or.inl h1, fun _ => rfl⟩

theorem main_setup_fail_fast_witness :
    main false ["prog".toList]
        { zed_open := ERROR_CODE.SUCCESS, enablePositionalTracking := ERROR_CODE.other 2,
          enableBodyTracking := ERROR_CODE.SUCCESS, startPublishing := ERROR_CODE.SUCCESS,
          grab := [ERROR_CODE.SUCCESS] }
      = { calls := [Call.zed_open init_parameters, Call.enablePositionalTracking, Call.close]
          exit := some 1 } :=
  (main_setup_fail_fast false ["prog".toList]
    { zed_open := ERROR_CODE.SUCCESS, enablePositionalTracking := ERROR_CODE.other 2,
      enableBodyTracking := ERROR_CODE.SUCCESS, startPublishing := ERROR_CODE.SUCCESS,
      grab := [ERROR_CODE.SUCCESS] }).2.1 rfl (by decide)

theorem exit_some_zero (isJetson : Bool) (argv : List (List Char)) (zed : Sdk)
    (hexit : (main isJetson argv zed).exit = some 0) :
    zed.zed_open = ERROR_CODE.SUCCESS ∧ zed.enablePositionalTracking = ERROR_CODE.SUCCESS
      ∧ zed.enableBodyTracking = ERROR_CODE.SUCCESS ∧ (mainLoop zed.grab).2 = true := by
  unfold main at hexit
  simp only [] at hexit
  by_cases h1 : zed.zed_open = ERROR_CODE.SUCCESS
  · by_cases h2 : zed.enablePositionalTracking = ERROR_CODE.SUCCESS
    · by_cases h3 : zed.enableBodyTracking = ERROR_CODE.SUCCESS
      · rw [if_neg (fun h => h h1), if_neg (fun h => h h2), if_neg (fun h => h h3)] at hexit
        by_cases h4 : (mainLoop zed.grab).2 = true
        · exact ⟨h1, h2, h3, h4⟩
        · rw [if_neg h4] at hexit
          exact absurd hexit (by decide : (none : Option Nat) ≠ some 0)
      · rw [if_neg (fun h => h h1), if_neg (fun h => h h2), if_pos h3] at hexit
        exact absurd hexit (by decide : some EXIT_FAILURE ≠ some 0)
    · rw [if_neg (fun h => h h1), if_pos h2] at hexit
      exact absurd hexit (by decide : some EXIT_FAILURE ≠ some 0)
  · rw [if_pos h1] at hexit
    exact absurd hexit (by decide : some EXIT_FAILURE ≠ some 0)

/-- C10: on every run in which the main loop is left (the process exits with
status 0) the calls are, in order: `open`, `enablePositionalTracking`,
`enableBodyTracking`, `startPublishing` on port 3000, the calls of the loop
(only `grab`, `retrieveBodies` and `setSVOPosition(0)`), then clearing the
detection buffer, `disableBodyTracking`, `disablePositionalTracking` and
`close`, each of these four exactly once in the whole run; the two modules are
disabled in the reverse of the order they were enabled in; and the status
`startPublishing` returns changes nothing. -/
theorem main_lifecycle (isJetson : Bool) (argv : List (List Char)) (zed : Sdk)
    (hexit : (main isJetson argv zed).exit = some 0) :
    (main isJetson argv zed).calls
      = [Call.zed_open (parseArgs argv init_parameters), Call.enablePositionalTracking,
          Call.enableBodyTracking (body_tracker_params isJetson), Call.startPublishing 3000]
        ++ (mainLoop zed.grab).1
        ++ [Call.body_list_clear, Call.disableBodyTracking, Call.disablePositionalTracking,
          Call.close]
    ∧ (∀ c ∈ (mainLoop zed.grab).1,
        c = Call.grab ∨ c = Call.retrieveBodies ∨ c = Call.setSVOPosition 0)
    ∧ (main isJetson argv zed).calls.count Call.body_list_clear = 1
    ∧ (main isJetson argv zed).calls.count Call.disableBodyTracking = 1
    ∧ (main isJetson argv zed).calls.count Call.disablePositionalTracking = 1
    ∧ (main isJetson argv zed).calls.count Call.close = 1
    ∧ (∀ e, main isJetson argv { zed with startPublishing := e } = main isJetson argv zed) := by
  obtain ⟨h1, h2, h3, h4⟩ := exit_some_zero isJetson argv zed hexit
  have hmem : ∀ c ∈ (mainLoop zed.grab).1,
      c = Call.grab ∨ c = Call.retrieveBodies ∨ c = Call.setSVOPosition 0 := by
    intro c hc
    rw [mainLoop_calls] at hc
    exact mem_rounds _ c hc
  have hcount : ∀ c, c ≠ Call.grab → c ≠ Call.retrieveBodies → c ≠ Call.setSVOPosition 0 →
      (mainLoop zed.grab).1.count c = 0 := by
    intro c n1 n2 n3
    apply List.count_eq_zero_of_not_mem
    intro hc
    rcases hmem c hc with h | h | h
    · exact n1 h
    · exact n2 h
    · exact n3 h
  have hcalls : (main isJetson argv zed).calls
      = [Call.zed_open (parseArgs argv init_parameters), Call.enablePositionalTracking,
          Call.enableBodyTracking (body_tracker_params isJetson), Call.startPublishing 3000]
        ++ (mainLoop zed.grab).1
        ++ [Call.body_list_clear, Call.disableBodyTracking, Call.disablePositionalTracking,
          Call.close] := by
    rw [main_of_setup isJetson argv zed h1 h2 h3, if_pos h4]
    rfl
  refine ⟨hcalls, hmem, ?_, ?_, ?_, ?_, ?_⟩
  · rw [hcalls, List.count_append, List.count_append,
      hcount _ (by decide) (by decide) (by decide)]
    simp
  · rw [hcalls, List.count_append, List.count_append,
      hcount _ (by decide) (by decide) (by decide)]
    simp
  · rw [hcalls, List.count_append, List.count_append,
      hcount _ (by decide) (by decide) (by decide)]
    simp
  · rw [hcalls, List.count_append, List.count_append,
      hcount _ (by decide) (by decide) (by decide)]
    simp
  · intro e
    rfl

theorem main_lifecycle_witness :
    (main true ["prog".toList, "a.svo".toList]
        { zed_open := ERROR_CODE.SUCCESS, enablePositionalTracking := ERROR_CODE.SUCCESS,
          enableBodyTracking := ERROR_CODE.SUCCESS, startPublishing := ERROR_CODE.other 5,
          grab := [ERROR_CODE.END_OF_SVOFILE_REACHED, ERROR_CODE.other 1] }).calls
      = [Call.zed_open { init_parameters with input := InputType.svoFile "a.svo".toList },
          Call.enablePositionalTracking,
          Call.enableBodyTracking (body_tracker_params true), Call.startPublishing 3000,
          Call.grab, Call.setSVOPosition 0, Call.grab,
          Call.body_list_clear, Call.disableBodyTracking, Call.disablePositionalTracking,
          Call.close] :=
  (main_lifecycle true ["prog".toList, "a.svo".toList]
    { zed_open := ERROR_CODE.SUCCESS, enablePositionalTracking := ERROR_CODE.SUCCESS,
      enableBodyTracking := ERROR_CODE.SUCCESS, startPublishing := ERROR_CODE.other 5,
      grab := [ERROR_CODE.END_OF_SVOFILE_REACHED, ERROR_CODE.other 1] } (by decide)).1.trans
    (by decide)

end ZedLivelink
